import Mathlib

/-!
# Verification of `FileTransferBLE.ino`

A shallow embedding of the BLE file-transfer firmware
(`src/FileTransferBLE/FileTransferBLE.ino`) and proofs about it.

Modelling conventions:
* Bytes are `Nat` values `< 256`; machine integers are `Nat` with explicit
  `% 2^32` (for `uint32_t`), `% 2^16` (for `uint16_t`) and `% 2^8`
  (for `uint8_t`) at the points where the C++ code truncates.
* The LittleFS storage is an association list from path to contents, plus a
  total capacity (`LittleFS.totalBytes()`); `usedBytes` is the sum of the
  stored file sizes.
* Fallible environment interactions (whether `LittleFS.open` succeeds,
  how many bytes `File.write` actually stores, whether `LittleFS.remove`
  succeeds) are oracle parameters of the handler functions.
* The outputs collected by the model are the calls the handlers make to
  `sendResponse` / `sendProgress`; `deviceConnected` gating inside those two
  helper functions is transport-level and not modelled.
-/

namespace FileTransferBLE

/-! ## Chunk codec: mbedtls base64 (`encodeBase64` / `decodeBase64`)

The firmware encodes each chunk with `mbedtls_base64_encode` and decodes with
`mbedtls_base64_decode` (standard RFC 4648 base64 with `=` padding).  We model
the byte-level codec on `List Nat` (each element a byte value). -/

def b64Alphabet : List Char :=
  "ABCDEFGHIJKLMNOPQRSTUVWXYZabcdefghijklmnopqrstuvwxyz0123456789+/".data

/-- The base64 digit for a 6-bit value. -/
def b64Char (n : Nat) : Char := b64Alphabet.getD n 'A'

/-- The 6-bit value of a base64 digit, `none` for a non-alphabet character. -/
def b64Val (c : Char) : Option Nat := b64Alphabet.findIdx? (· == c)

/-- Byte list to base64 character list, processing three bytes at a time and
padding the final partial group with `=`, as `mbedtls_base64_encode` does. -/
def encodeChars : List Nat → List Char
  | [] => []
  | [a] => [b64Char (a / 4), b64Char (a % 4 * 16), '=', '=']
  | [a, b] => [b64Char (a / 4), b64Char (a % 4 * 16 + b / 16), b64Char (b % 16 * 4), '=']
  | a :: b :: c :: rest =>
      b64Char (a / 4) :: b64Char (a % 4 * 16 + b / 16) ::
        b64Char (b % 16 * 4 + c / 64) :: b64Char (c % 64) :: encodeChars rest

/-- `String encodeBase64(uint8_t* data, size_t length)` (lines 684-696). -/
def encodeBase64 (data : List Nat) : String := String.mk (encodeChars data)

/-- Base64 character list to byte list: groups of four digits, the last group
possibly padded; `none` on malformed input (`mbedtls_base64_decode` returning
`MBEDTLS_ERR_BASE64_INVALID_CHARACTER`). -/
def decodeBase64Core : List Char → Option (List Nat)
  | [] => some []
  | c1 :: c2 :: c3 :: c4 :: rest =>
      match b64Val c1, b64Val c2 with
      | some w, some x =>
        if c3 == '=' then
          if c4 == '=' && rest.isEmpty then some [w * 4 + x / 16] else none
        else
          match b64Val c3 with
          | some y =>
            if c4 == '=' then
              if rest.isEmpty then some [w * 4 + x / 16, x % 16 * 16 + y / 4] else none
            else
              match b64Val c4 with
              | some z =>
                match decodeBase64Core rest with
                | some tail =>
                    some ((w * 4 + x / 16) :: (x % 16 * 16 + y / 4) :: (y % 4 * 64 + z) :: tail)
                | none => none
              | none => none
          | none => none
      | _, _ => none
  | _ => none

/-- `size_t decodeBase64(String input, uint8_t* output, size_t maxLen)`
(lines 702-719): `none` models a nonzero mbedtls return code (invalid input,
or decoded output exceeding the caller's buffer `maxLen`), which makes the
source function return `0`. -/
def decodeBase64 (input : String) (maxLen : Nat) : Option (List Nat) :=
  (decodeBase64Core input.data).bind
    (fun out => if out.length ≤ maxLen then some out else none)
/-! ## Session state and storage model -/

def CHUNK_SIZE : Nat := 200

inductive TransferState
  | STATE_IDLE
  | STATE_UPLOADING
  | STATE_DOWNLOADING
deriving DecidableEq, Repr

open TransferState

/-- The LittleFS contents: association list from path to file bytes. -/
abbrev FSFiles : Type := List (String × List Nat)

def fsExists (files : FSFiles) (name : String) : Bool :=
  files.any (fun f => f.1 == name)

def fsGet (files : FSFiles) (name : String) : List Nat :=
  match files.find? (fun f => f.1 == name) with
  | some f => f.2
  | none => []

def fsRemove (files : FSFiles) (name : String) : FSFiles :=
  files.filter (fun f => f.1 != name)

def fsSet (files : FSFiles) (name : String) (content : List Nat) : FSFiles :=
  fsRemove files name ++ [(name, content)]

def usedBytes (files : FSFiles) : Nat := (files.map (fun f => f.2.length)).sum

/-- The global mutable state of the sketch (lines 63-69) together with the
storage it owns.  `currentFileOpen` models whether the global `File
currentFile` handle is open. -/
structure Sys where
  currentState : TransferState
  currentFilename : String
  currentFileOpen : Bool
  expectedFileSize : Nat
  transferredBytes : Nat
  expectedChunks : Nat
  receivedChunks : Nat
  files : FSFiles
  capacity : Nat
deriving Repr

/-- A call to `sendResponse` (a protocol line) or `sendProgress` (one byte on
the progress characteristic). -/
inductive Msg
  | resp (line : String)
  | progress (value : Nat)
deriving DecidableEq, Repr

/-- `void resetTransferState()` (lines 725-738): closes `currentFile` if open
and zeroes every session field. -/
def resetTransferState (st : Sys) : Sys :=
  { st with
    currentFileOpen := false
    currentState := STATE_IDLE
    currentFilename := ""
    expectedFileSize := 0
    transferredBytes := 0
    expectedChunks := 0
    receivedChunks := 0 }

/-- The Arduino `String::startsWith("/")` test: whether the first character
is `'/'` (kept as an executable first-character check so that concrete states
evaluate). -/
def startsWithSlash (s : String) : Bool := s.data.head? == some '/'

/-- The `if (!filename.startsWith("/")) filename = "/" + filename;` pattern
used by `deleteFile`, `startUpload`, `startDownload`. -/
def withSlash (filename : String) : String :=
  if startsWithSlash filename then filename else "/" ++ filename

/-- `void startUpload(String filename, uint32_t fileSize)` (lines 444-493).
`openOk` is the oracle for whether `LittleFS.open(filename, "w")` yields a
valid handle.  Opening for write creates/truncates the file. -/
def startUpload (st : Sys) (filename0 : String) (fileSize : Nat) (openOk : Bool) :
    Sys × List Msg :=
  if st.currentState ≠ STATE_IDLE then
    (st, [Msg.resp "ERROR:TRANSFER_IN_PROGRESS"])
  else
    let filename := withSlash filename0
    let freeSpace := st.capacity - usedBytes st.files
    if fileSize > freeSpace then
      (st, [Msg.resp "ERROR:NO_SPACE"])
    else
      let files1 := if fsExists st.files filename then fsRemove st.files filename else st.files
      if openOk = false then
        ({ st with files := files1 }, [Msg.resp "ERROR:CREATE_FAILED"])
      else
        ({ st with
            currentState := STATE_UPLOADING
            currentFilename := filename
            currentFileOpen := true
            expectedFileSize := fileSize
            transferredBytes := 0
            expectedChunks := (fileSize + CHUNK_SIZE - 1) % 4294967296 / CHUNK_SIZE % 65536
            receivedChunks := 0
            files := fsSet files1 filename [] },
         [Msg.resp "OK:UPLOAD_READY", Msg.progress 0])

/-- `void receiveChunk(String base64Data)` (lines 499-567).  `writeCount n` is
the oracle for how many bytes `currentFile.write(buffer, n)` actually stores.
The decode buffer is `uint8_t buffer[CHUNK_SIZE + 10]`, so `maxLen` is
`CHUNK_SIZE + 10`. -/
def receiveChunk (st : Sys) (base64Data : String) (writeCount : Nat → Nat) :
    Sys × List Msg :=
  if st.currentState ≠ STATE_UPLOADING then
    (st, [Msg.resp "ERROR:NOT_UPLOADING"])
  else
    match decodeBase64 base64Data (CHUNK_SIZE + 10) with
    | none => (st, [Msg.resp "ERROR:DECODE_FAILED"])
    | some buf =>
      if buf.length = 0 then
        (st, [Msg.resp "ERROR:DECODE_FAILED"])
      else
        let written := writeCount buf.length
        let files1 := fsSet st.files st.currentFilename
          (fsGet st.files st.currentFilename ++ buf.take written)
        if written ≠ buf.length then
          (resetTransferState
            { st with currentFileOpen := false, files := fsRemove files1 st.currentFilename },
           [Msg.resp "ERROR:WRITE_FAILED"])
        else
          let st1 := { st with
            files := files1
            transferredBytes := (st.transferredBytes + written) % 4294967296
            receivedChunks := (st.receivedChunks + 1) % 65536 }
          -- line 531: uint8_t progress = (transferredBytes * 100) / expectedFileSize;
          -- (the division is evaluated even when expectedFileSize == 0)
          let progress := st1.transferredBytes * 100 % 4294967296 / st1.expectedFileSize % 256
          let progressMsgs :=
            if st1.receivedChunks % 10 = 0 ∨ st1.receivedChunks ≥ st1.expectedChunks then
              [Msg.progress progress]
            else []
          let ackMsgs := progressMsgs ++ [Msg.resp ("ACK:" ++ toString st1.receivedChunks)]
          if st1.receivedChunks ≥ st1.expectedChunks ∨
              st1.transferredBytes ≥ st1.expectedFileSize then
            let actualSize := (fsGet st1.files st1.currentFilename).length
            let doneMsgs :=
              if actualSize = st1.expectedFileSize then
                [Msg.resp ("OK:UPLOAD_COMPLETE:" ++ toString actualSize), Msg.progress 100]
              else
                [Msg.resp ("WARNING:SIZE_MISMATCH:" ++ toString actualSize)]
            (resetTransferState { st1 with currentFileOpen := false }, ackMsgs ++ doneMsgs)
          else
            (st1, ackMsgs)

/-- One iteration structure of the `while (file.available())` loop of
`void sendFileInChunks(String filename)` (lines 644-667), reading
`CHUNK_SIZE` bytes at a time, with an explicit iteration budget making the
recursion structural (each iteration consumes at least one byte, so
`content.length` iterations always suffice; `sendChunksGo_fuel` and
`sendChunksLoop_eq` below prove the budget is irrelevant and that
`sendChunksLoop` satisfies exactly the while-loop recurrence). -/
def sendChunksGo : Nat → List Nat → Nat → Nat → Nat → Nat → Nat × List Msg
  | _, [], transferred, _, _, _ => (transferred, [])
  | 0, _ :: _, transferred, _, _, _ => (transferred, [])
  | fuel + 1, b :: bs, transferred, chunkNum, totalSize, totalChunks =>
    let buffer := (b :: bs).take CHUNK_SIZE
    let encoded := encodeBase64 buffer
    let msg := Msg.resp ("CHUNK:" ++ toString chunkNum ++ ":" ++ encoded)
    let transferred1 := (transferred + buffer.length) % 4294967296
    let chunkNum1 := (chunkNum + 1) % 65536
    let progress := transferred1 * 100 % 4294967296 / totalSize % 256
    let progressMsgs :=
      if chunkNum1 % 5 = 0 ∨ chunkNum1 ≥ totalChunks then [Msg.progress progress] else []
    let rest := sendChunksGo fuel ((b :: bs).drop CHUNK_SIZE) transferred1 chunkNum1
      totalSize totalChunks
    (rest.1, msg :: progressMsgs ++ rest.2)

def sendChunksLoop (content : List Nat) (transferred chunkNum totalSize totalChunks : Nat) :
    Nat × List Msg :=
  sendChunksGo content.length content transferred chunkNum totalSize totalChunks

/-- `void startDownload(String filename)` (lines 573-621) together with the
synchronous `sendFileInChunks` call it ends with (lines 627-678).  `openOk` is
the oracle for the read-open in `startDownload`, `openOk2` for the one in
`sendFileInChunks`. -/
def startDownload (st : Sys) (filename0 : String) (openOk openOk2 : Bool) :
    Sys × List Msg :=
  if st.currentState ≠ STATE_IDLE then
    (st, [Msg.resp "ERROR:TRANSFER_IN_PROGRESS"])
  else
    let filename := withSlash filename0
    if fsExists st.files filename = false then
      (st, [Msg.resp "ERROR:FILE_NOT_FOUND"])
    else if openOk = false then
      (st, [Msg.resp "ERROR:OPEN_FAILED"])
    else
      let content := fsGet st.files filename
      let fileSize := content.length
      let st1 := { st with
        currentState := STATE_DOWNLOADING
        currentFilename := filename
        expectedFileSize := fileSize
        transferredBytes := 0 }
      let cleanName := if startsWithSlash filename then filename.drop 1 else filename
      let startMsg := Msg.resp ("DOWNLOAD_START:" ++ cleanName ++ ":" ++ toString fileSize)
      if openOk2 = false then
        (resetTransferState st1, [startMsg, Msg.resp "ERROR:FILE_OPEN_FAILED"])
      else
        let totalChunks := (fileSize + CHUNK_SIZE - 1) % 4294967296 / CHUNK_SIZE % 65536
        let loop := sendChunksLoop content st1.transferredBytes 0 fileSize totalChunks
        (resetTransferState { st1 with transferredBytes := loop.1 },
         [startMsg, Msg.progress 0] ++ loop.2 ++
           [Msg.resp ("DOWNLOAD_END:" ++ toString loop.1), Msg.progress 100])

/-- `void deleteFile(String filename)` (lines 411-438); `removeOk` is the
oracle for `LittleFS.remove` succeeding. -/
def deleteFile (st : Sys) (filename0 : String) (removeOk : Bool) : Sys × List Msg :=
  let filename := withSlash filename0
  if fsExists st.files filename = false then
    (st, [Msg.resp "ERROR:FILE_NOT_FOUND"])
  else if st.currentState ≠ STATE_IDLE ∧ st.currentFilename = filename then
    (st, [Msg.resp "ERROR:FILE_IN_USE"])
  else if removeOk then
    ({ st with files := fsRemove st.files filename }, [Msg.resp "OK:DELETED"])
  else
    (st, [Msg.resp "ERROR:DELETE_FAILED"])

/-- `void listFiles()` (lines 382-405): read-only. -/
def listFiles (st : Sys) : Sys × List Msg :=
  let fileMsgs := st.files.map (fun f =>
    let name := if startsWithSlash f.1 then f.1.drop 1 else f.1
    Msg.resp ("FILE:" ++ name ++ ":" ++ toString f.2.length))
  (st, [Msg.resp "FILES_START"] ++ fileMsgs ++
    [Msg.resp ("FILES_END:" ++ toString st.files.length)])

/-- `ServerCallbacks::onDisconnect` (lines 100-117): the transfer-cleanup part.
It sends nothing (`sendResponse` / `sendProgress` are never called there). -/
def onDisconnect (st : Sys) : Sys × List Msg :=
  if st.currentState ≠ STATE_IDLE then
    let st1 := { st with currentFileOpen := false }
    let files1 :=
      if st1.currentState = STATE_UPLOADING ∧ fsExists st1.files st1.currentFilename then
        fsRemove st1.files st1.currentFilename
      else st1.files
    (resetTransferState { st1 with files := files1 }, [])
  else
    (st, [])

/-- The state at the end of `setup()`: idle session, closed handle, whatever
files and capacity the flash holds. -/
def initSys (capacity : Nat) (files0 : FSFiles) : Sys :=
  { currentState := STATE_IDLE
    currentFilename := ""
    currentFileOpen := false
    expectedFileSize := 0
    transferredBytes := 0
    expectedChunks := 0
    receivedChunks := 0
    files := files0
    capacity := capacity }

/-! ## The event loop as a transition system

`handleCommand` (lines 288-343) dispatches each arriving command line to one
of the handlers below (the `PING`, unknown-command and malformed
`UPLOAD_START` branches only call `sendResponse` and leave the state
untouched, so they are covered by reflexivity).  Disconnect events run
`ServerCallbacks::onDisconnect`.  A `Step` is the complete, synchronous
handling of one such event; the states of the relation are the states at
command boundaries. -/

inductive Step : Sys → Sys → Prop
  | listCmd (st : Sys) : Step st (listFiles st).1
  | deleteCmd (st : Sys) (name : String) (removeOk : Bool) :
      Step st (deleteFile st name removeOk).1
  | uploadStartCmd (st : Sys) (name : String) (size : Nat) (openOk : Bool)
      (hsize : size < 4294967296) : Step st (startUpload st name size openOk).1
  | uploadChunkCmd (st : Sys) (data : String) (writeCount : Nat → Nat) :
      Step st (receiveChunk st data writeCount).1
  | downloadCmd (st : Sys) (name : String) (openOk openOk2 : Bool) :
      Step st (startDownload st name openOk openOk2).1
  | disconnectEvt (st : Sys) : Step st (onDisconnect st).1

/-- States reachable at a command boundary, from some initial flash image. -/
def Reachable (st : Sys) : Prop :=
  ∃ capacity files0, Relation.ReflTransGen Step (initSys capacity files0) st

/-! ## Storage lemmas -/
/-! ## The boundary invariant

At every command boundary: the handle is open iff the phase is not idle, the
phase is never `STATE_DOWNLOADING` (downloads complete synchronously inside
`startDownload`), and during an upload the byte/chunk counters are within
their bounds. -/

def Inv (st : Sys) : Prop :=
  (st.currentFileOpen = true ↔ st.currentState ≠ STATE_IDLE) ∧
  st.currentState ≠ STATE_DOWNLOADING ∧
  (st.currentState = STATE_UPLOADING →
    st.transferredBytes ≤ st.expectedFileSize ∧
    st.transferredBytes ≤ (CHUNK_SIZE + 10) * st.receivedChunks ∧
    st.expectedChunks < 65536 ∧
    (0 < st.receivedChunks →
      st.receivedChunks < st.expectedChunks ∧
      st.transferredBytes < st.expectedFileSize))

/-- Handle a sequence of `CMD:UPLOAD_CHUNK` payloads in order, with every
`currentFile.write` storing all requested bytes. -/
def runChunks (st : Sys) : List String → Sys
  | [] => st
  | p :: ps => runChunks (receiveChunk st p (fun n => n)).1 ps

/-- A payload list paired with the decoded chunk sizes the peer sent: every
payload decodes (within the 210-byte buffer) to a nonempty buffer of the
corresponding size. -/
def AcceptedSizes (payloads : List String) (sizes : List Nat) : Prop :=
  List.Forall₂
    (fun p c => ∃ buf, decodeBase64 p (CHUNK_SIZE + 10) = some buf ∧ buf.length = c ∧ 0 < c)
    payloads sizes

/-- The conjunction of guards of `receiveChunk` (lines 500-528) that control
must pass before the division `(transferredBytes * 100) / expectedFileSize`
at line 531 is evaluated: an active upload, a successful nonempty decode,
and a full write. -/
def reachesProgressDivision (st : Sys) (base64Data : String) (writeCount : Nat → Nat) : Bool :=
  (st.currentState == STATE_UPLOADING) &&
    (match decodeBase64 base64Data (CHUNK_SIZE + 10) with
     | none => false
     | some buf => !(buf.length == 0) && (writeCount buf.length == buf.length))

/-! ## Codec theorems -/

theorem b64Val_b64Char : ∀ n, n < 64 → b64Val (b64Char n) = some n := by decide

theorem b64Char_ne_pad : ∀ n, n < 64 → (b64Char n == '=') = false := by decide

theorem decodeCore_encodeChars (b : List Nat) (hb : ∀ x ∈ b, x < 256) :
    decodeBase64Core (encodeChars b) = some b := by
  induction b using encodeChars.induct with
  | case1 => rfl
  | case2 a =>
      have ha : a < 256 := hb a (by simp)
      have h1 : a / 4 < 64 := by omega
      have h2 : a % 4 * 16 < 64 := by omega
      simp only [encodeChars, decodeBase64Core, b64Val_b64Char _ h1, b64Val_b64Char _ h2]
      simp
      omega
  | case3 a b =>
      have ha : a < 256 := hb a (by simp)
      have hbb : b < 256 := hb b (by simp)
      have h1 : a / 4 < 64 := by omega
      have h2 : a % 4 * 16 + b / 16 < 64 := by omega
      have h3 : b % 16 * 4 < 64 := by omega
      simp only [encodeChars, decodeBase64Core, b64Val_b64Char _ h1, b64Val_b64Char _ h2,
        b64Char_ne_pad _ h3, b64Val_b64Char _ h3]
      simp
      omega
  | case4 a b c rest ih =>
      have ha : a < 256 := hb a (by simp)
      have hbb : b < 256 := hb b (by simp)
      have hc : c < 256 := hb c (by simp)
      have h1 : a / 4 < 64 := by omega
      have h2 : a % 4 * 16 + b / 16 < 64 := by omega
      have h3 : b % 16 * 4 + c / 64 < 64 := by omega
      have h4 : c % 64 < 64 := by omega
      have ihh := ih (fun x hx => hb x (by simp [hx]))
      simp only [encodeChars, decodeBase64Core, b64Val_b64Char _ h1, b64Val_b64Char _ h2,
        b64Char_ne_pad _ h3, b64Val_b64Char _ h3, b64Char_ne_pad _ h4, b64Val_b64Char _ h4,
        Bool.false_eq_true, if_false, ihh]
      simp
      omega

/-- Codec round trip at the level of the two source functions. -/
theorem decodeBase64_encodeBase64 (b : List Nat) (maxLen : Nat)
    (hb : ∀ x ∈ b, x < 256) (hlen : b.length ≤ maxLen) :
    decodeBase64 (encodeBase64 b) maxLen = some b := by
  simp [decodeBase64, encodeBase64, decodeCore_encodeChars b hb, hlen]


theorem fsExists_fsRemove (files : FSFiles) (name : String) :
    fsExists (fsRemove files name) name = false := by
  induction files with
  | nil => rfl
  | cons f fs ih =>
      by_cases h : f.1 = name <;> simp [fsRemove, fsExists, h, bne_iff_ne] at ih ⊢

/-! ## Characterizations of `receiveChunk` -/

theorem decodeBase64_length_le (s : String) (maxLen : Nat) (buf : List Nat)
    (h : decodeBase64 s maxLen = some buf) : buf.length ≤ maxLen := by
  unfold decodeBase64 at h
  cases hc : decodeBase64Core s.data with
  | none => rw [hc] at h; simp at h
  | some out =>
      rw [hc] at h
      by_cases hl : out.length ≤ maxLen
      · simp [hl] at h
        rw [← h]
        exact hl
      · simp [hl] at h

theorem receiveChunk_not_uploading (st : Sys) (d : String) (wc : Nat → Nat)
    (h : st.currentState ≠ STATE_UPLOADING) :
    receiveChunk st d wc = (st, [Msg.resp "ERROR:NOT_UPLOADING"]) := by
  unfold receiveChunk
  rw [if_pos h]

theorem receiveChunk_decode_none (st : Sys) (d : String) (wc : Nat → Nat)
    (hst : st.currentState = STATE_UPLOADING)
    (hdec : decodeBase64 d (CHUNK_SIZE + 10) = none) :
    receiveChunk st d wc = (st, [Msg.resp "ERROR:DECODE_FAILED"]) := by
  unfold receiveChunk
  rw [hst, hdec]
  simp

theorem receiveChunk_decode_empty (st : Sys) (d : String) (wc : Nat → Nat)
    (hst : st.currentState = STATE_UPLOADING)
    (hdec : decodeBase64 d (CHUNK_SIZE + 10) = some []) :
    receiveChunk st d wc = (st, [Msg.resp "ERROR:DECODE_FAILED"]) := by
  unfold receiveChunk
  rw [hst, hdec]
  simp

theorem receiveChunk_write_short (st : Sys) (d : String) (wc : Nat → Nat) (buf : List Nat)
    (hst : st.currentState = STATE_UPLOADING)
    (hdec : decodeBase64 d (CHUNK_SIZE + 10) = some buf)
    (hne : buf.length ≠ 0)
    (hwc : wc buf.length ≠ buf.length) :
    receiveChunk st d wc =
      (resetTransferState
        { st with
          currentFileOpen := false
          files := fsRemove
            (fsSet st.files st.currentFilename
              (fsGet st.files st.currentFilename ++ buf.take (wc buf.length)))
            st.currentFilename },
       [Msg.resp "ERROR:WRITE_FAILED"]) := by
  unfold receiveChunk
  rw [hst, hdec]
  simp [hne, hwc]

/-- Full behaviour of `receiveChunk` on an accepted chunk (decode succeeds,
nonempty, fully written). -/
theorem receiveChunk_accepted (st : Sys) (d : String) (wc : Nat → Nat) (buf : List Nat)
    (hst : st.currentState = STATE_UPLOADING)
    (hdec : decodeBase64 d (CHUNK_SIZE + 10) = some buf)
    (hne : buf.length ≠ 0)
    (hwc : wc buf.length = buf.length) :
    receiveChunk st d wc =
      (let t1 := (st.transferredBytes + buf.length) % 4294967296
       let r1 := (st.receivedChunks + 1) % 65536
       let files1 := fsSet st.files st.currentFilename
         (fsGet st.files st.currentFilename ++ buf)
       let st1 : Sys := { st with files := files1, transferredBytes := t1, receivedChunks := r1 }
       let progress := t1 * 100 % 4294967296 / st.expectedFileSize % 256
       let pmsgs :=
         if r1 % 10 = 0 ∨ r1 ≥ st.expectedChunks then [Msg.progress progress] else []
       let ack := pmsgs ++ [Msg.resp ("ACK:" ++ toString r1)]
       if r1 ≥ st.expectedChunks ∨ t1 ≥ st.expectedFileSize then
         let actualSize := (fsGet files1 st.currentFilename).length
         let dmsgs :=
           if actualSize = st.expectedFileSize then
             [Msg.resp ("OK:UPLOAD_COMPLETE:" ++ toString actualSize), Msg.progress 100]
           else
             [Msg.resp ("WARNING:SIZE_MISMATCH:" ++ toString actualSize)]
         (resetTransferState { st1 with currentFileOpen := false }, ack ++ dmsgs)
       else (st1, ack)) := by
  unfold receiveChunk
  rw [hst, hdec]
  simp [hne, hwc]

/-! ## The boundary invariant

At every command boundary: the handle is open iff the phase is not idle, the
phase is never `STATE_DOWNLOADING` (downloads complete synchronously inside
`startDownload`), and during an upload the byte/chunk counters are within
their bounds. -/

theorem inv_initSys (capacity : Nat) (files0 : FSFiles) : Inv (initSys capacity files0) := by
  simp [Inv, initSys]

theorem inv_resetTransferState (st : Sys) : Inv (resetTransferState st) := by
  simp [Inv, resetTransferState]

theorem inv_listFiles (st : Sys) (h : Inv st) : Inv (listFiles st).1 := h

theorem inv_deleteFile (st : Sys) (name : String) (removeOk : Bool) (h : Inv st) :
    Inv (deleteFile st name removeOk).1 := by
  simp only [deleteFile]
  split
  · exact h
  · split
    · exact h
    · split
      · exact h
      · exact h

theorem inv_startUpload (st : Sys) (name : String) (size : Nat) (openOk : Bool) (h : Inv st) :
    Inv (startUpload st name size openOk).1 := by
  simp only [startUpload]
  split
  · exact h
  · split
    · exact h
    · split
      · exact h
      · refine ⟨by simp, by simp, fun _ => ⟨Nat.zero_le _, Nat.zero_le _, ?_, ?_⟩⟩
        · exact Nat.mod_lt _ (by norm_num)
        · intro h0
          simp at h0

theorem inv_receiveChunk (st : Sys) (d : String) (wc : Nat → Nat) (h : Inv st) :
    Inv (receiveChunk st d wc).1 := by
  by_cases hst : st.currentState = STATE_UPLOADING
  · cases hdec : decodeBase64 d (CHUNK_SIZE + 10) with
    | none => rw [receiveChunk_decode_none st d wc hst hdec]; exact h
    | some buf =>
        by_cases hne : buf.length = 0
        · have hbuf : buf = [] := List.length_eq_zero.mp hne
          rw [hbuf] at hdec
          rw [receiveChunk_decode_empty st d wc hst hdec]
          exact h
        · by_cases hwc : wc buf.length = buf.length
          · rw [receiveChunk_accepted st d wc buf hst hdec hne hwc]
            obtain ⟨hiff, hnd, hup⟩ := h
            obtain ⟨htS, htb, hE, hpos⟩ := hup hst
            have hc210 : buf.length ≤ CHUNK_SIZE + 10 := decodeBase64_length_le _ _ _ hdec
            have hrb : st.receivedChunks ≤ 65534 := by
              rcases Nat.eq_zero_or_pos st.receivedChunks with h0 | h0
              · omega
              · have := (hpos h0).1
                omega
            have hr : st.receivedChunks + 1 < 65536 := by omega
            have ht : st.transferredBytes + buf.length < 4294967296 := by
              have h1 : st.transferredBytes ≤ (CHUNK_SIZE + 10) * 65534 :=
                le_trans htb (Nat.mul_le_mul_left _ hrb)
              simp only [CHUNK_SIZE] at h1 hc210
              omega
            rw [Nat.mod_eq_of_lt hr, Nat.mod_eq_of_lt ht]
            dsimp only
            split
            · exact inv_resetTransferState _
            · rename_i hcomp
              push_neg at hcomp
              obtain ⟨hcompE, hcompS⟩ := hcomp
              have hopen : st.currentFileOpen = true := hiff.mpr (by rw [hst]; simp)
              simp only [Inv]
              rw [hst, hopen]
              simp only [CHUNK_SIZE] at htb hc210 ⊢
              refine ⟨by simp, by simp, fun _ => ⟨by omega, by omega, hE, fun _ => ⟨by omega, by omega⟩⟩⟩
          · rw [receiveChunk_write_short st d wc buf hst hdec hne hwc]
            exact inv_resetTransferState _
  · rw [receiveChunk_not_uploading st d wc hst]
    exact h

theorem inv_startDownload (st : Sys) (name : String) (openOk openOk2 : Bool) (h : Inv st) :
    Inv (startDownload st name openOk openOk2).1 := by
  simp only [startDownload]
  split
  · exact h
  · split
    · exact h
    · split
      · exact h
      · split
        · exact inv_resetTransferState _
        · exact inv_resetTransferState _

theorem inv_onDisconnect (st : Sys) (h : Inv st) : Inv (onDisconnect st).1 := by
  unfold onDisconnect
  split
  · exact inv_resetTransferState _
  · exact h

theorem inv_step (st st' : Sys) (hstep : Step st st') (h : Inv st) : Inv st' := by
  cases hstep with
  | listCmd => exact inv_listFiles _ h
  | deleteCmd name removeOk => exact inv_deleteFile _ name removeOk h
  | uploadStartCmd name size openOk hsize => exact inv_startUpload _ name size openOk h
  | uploadChunkCmd data writeCount => exact inv_receiveChunk _ data writeCount h
  | downloadCmd name openOk openOk2 => exact inv_startDownload _ name openOk openOk2 h
  | disconnectEvt => exact inv_onDisconnect _ h

theorem inv_reachable (st : Sys) (h : Reachable st) : Inv st := by
  obtain ⟨capacity, files0, hr⟩ := h
  induction hr with
  | refl => exact inv_initSys capacity files0
  | tail _ hstep ih => exact inv_step _ _ hstep ih

/-! ## Upload chunk sequences (completion bound) -/

theorem runChunks_not_uploading (st : Sys) (ps : List String)
    (h : st.currentState ≠ STATE_UPLOADING) : runChunks st ps = st := by
  induction ps with
  | nil => rfl
  | cons p ps ih =>
      show runChunks (receiveChunk st p (fun n => n)).1 ps = st
      rw [receiveChunk_not_uploading st p _ h]
      exact ih

/-- Core characterization: starting from an uploading state whose counters
have not yet hit their bounds, the session is back to `STATE_IDLE` after `k`
accepted chunks exactly when `k` reaches the stored chunk bound or the chunk
bytes accumulate to the declared size. -/
theorem runChunks_completion (payloads : List String) (sizes : List Nat)
    (hacc : AcceptedSizes payloads sizes) :
    ∀ st : Sys, st.currentState = STATE_UPLOADING →
      st.expectedChunks < 65536 →
      st.receivedChunks < st.expectedChunks →
      st.transferredBytes < st.expectedFileSize →
      st.transferredBytes ≤ (CHUNK_SIZE + 10) * st.receivedChunks →
      ∀ k, k ≤ payloads.length →
        ((runChunks st (payloads.take k)).currentState = STATE_IDLE ↔
          (st.expectedChunks ≤ st.receivedChunks + k ∨
            st.expectedFileSize ≤ st.transferredBytes + (sizes.take k).sum)) := by
  induction hacc with
  | nil =>
      intro st hst hE hrE htS htb k hk
      simp only [Nat.le_zero, List.length_nil] at hk
      subst hk
      simp only [List.take_nil, runChunks, hst, List.sum_nil, Nat.add_zero]
      constructor
      · intro hcontra
        exact absurd hcontra (by simp)
      · intro hcontra
        omega
  | @cons p c ps cs hpc hrest ih =>
      intro st hst hE hrE htS htb k hk
      cases k with
      | zero =>
          simp only [List.take_zero, runChunks, hst, List.sum_nil, Nat.add_zero]
          constructor
          · intro hcontra
            exact absurd hcontra (by simp)
          · intro hcontra
            omega
      | succ k' =>
          obtain ⟨buf, hdec, hlen, hcpos⟩ := hpc
          subst hlen
          rw [List.take_succ_cons, List.take_succ_cons]
          show ((runChunks (receiveChunk st p (fun n => n)).1 (ps.take k')).currentState
              = STATE_IDLE ↔ _)
          rw [receiveChunk_accepted st p _ buf hst hdec (by omega) rfl]
          have hc210 : buf.length ≤ CHUNK_SIZE + 10 := decodeBase64_length_le _ _ _ hdec
          have hr : st.receivedChunks + 1 < 65536 := by omega
          have ht : st.transferredBytes + buf.length < 4294967296 := by
            have h1 : st.transferredBytes ≤ (CHUNK_SIZE + 10) * 65534 :=
              le_trans htb (Nat.mul_le_mul_left _ (by omega))
            simp only [CHUNK_SIZE] at h1 hc210
            omega
          rw [Nat.mod_eq_of_lt hr, Nat.mod_eq_of_lt ht]
          dsimp only
          split
          · rename_i hcomp
            rw [runChunks_not_uploading _ _ (by simp [resetTransferState])]
            simp only [resetTransferState, List.sum_cons]
            constructor
            · intro _
              omega
            · intro _
              trivial
          · rename_i hcomp
            push_neg at hcomp
            obtain ⟨h1, h2⟩ := hcomp
            have hk' : k' ≤ ps.length := by
              simpa using Nat.lt_succ_iff.mp (Nat.lt_succ_of_le hk)
            have htb1 : st.transferredBytes + buf.length
                ≤ (CHUNK_SIZE + 10) * (st.receivedChunks + 1) := by
              simp only [CHUNK_SIZE] at htb hc210 ⊢
              omega
            have hih := ih
              { st with
                files := fsSet st.files st.currentFilename
                  (fsGet st.files st.currentFilename ++ buf)
                transferredBytes := st.transferredBytes + buf.length
                receivedChunks := st.receivedChunks + 1 }
              hst hE h1 h2 htb1 k' hk'
            rw [hih]
            simp only [List.sum_cons]
            omega

/-- Behaviour of `startUpload` when all its guards pass. -/
theorem startUpload_success (st : Sys) (name : String) (size : Nat)
    (hidle : st.currentState = STATE_IDLE)
    (hfree : size ≤ st.capacity - usedBytes st.files) :
    startUpload st name size true =
      ({ st with
          currentState := STATE_UPLOADING
          currentFilename := withSlash name
          currentFileOpen := true
          expectedFileSize := size
          transferredBytes := 0
          expectedChunks := (size + CHUNK_SIZE - 1) % 4294967296 / CHUNK_SIZE % 65536
          receivedChunks := 0
          files := fsSet
            (if fsExists st.files (withSlash name) then fsRemove st.files (withSlash name)
             else st.files) (withSlash name) [] },
       [Msg.resp "OK:UPLOAD_READY", Msg.progress 0]) := by
  simp only [startUpload]
  rw [if_neg (by simp [hidle]), if_neg (by omega), if_neg (by simp)]

/-- The one-step reachability certificate used by the witnesses below: the
state right after a successful `CMD:UPLOAD_START:a:<size>` on a fresh flash
with 1000 free bytes. -/
theorem reachable_demo_upload (size : Nat) (hsize : size < 4294967296) :
    Reachable (startUpload (initSys 1000 []) "a" size true).1 :=
  ⟨1000, [], Relation.ReflTransGen.single (Step.uploadStartCmd _ "a" size true hsize)⟩

/-! ## Claims -/

/-- C1: in every reachable session state (at command boundaries), the
session's file handle is open if and only if the phase is not `STATE_IDLE`;
in particular every transition into `STATE_IDLE` (always via
`resetTransferState`, which closes first) leaves the handle closed. -/
theorem C1_handle_open_iff_not_idle (st : Sys) (h : Reachable st) :
    st.currentFileOpen = true ↔ st.currentState ≠ STATE_IDLE :=
  (inv_reachable st h).1

theorem C1_handle_open_iff_not_idle_witness :
    (startUpload (initSys 1000 []) "a" 3 true).1.currentFileOpen = true ↔
      (startUpload (initSys 1000 []) "a" 3 true).1.currentState ≠ STATE_IDLE :=
  C1_handle_open_iff_not_idle _ (reachable_demo_upload 3 (by norm_num))

/-- C2: for every byte sequence `b` (including the empty one and ones of
exactly the 200-byte chunk size), decoding the result of encoding `b`, with a
decode buffer of at least `b.length`, yields `b` again. -/
theorem C2_decode_encode_roundtrip (b : List Nat) (maxLen : Nat)
    (hb : ∀ x ∈ b, x < 256) (hlen : b.length ≤ maxLen) :
    decodeBase64 (encodeBase64 b) maxLen = some b :=
  decodeBase64_encodeBase64 b maxLen hb hlen

theorem C2_decode_encode_roundtrip_witness :
    decodeBase64 (encodeBase64 []) 0 = some [] ∧
      decodeBase64 (encodeBase64 (List.replicate 200 171)) 210
        = some (List.replicate 200 171) :=
  ⟨C2_decode_encode_roundtrip [] 0 (by simp) (by simp),
   C2_decode_encode_roundtrip (List.replicate 200 171) 210
     (fun x hx => by rw [List.eq_of_mem_replicate hx]; norm_num)
     (by rw [List.length_replicate]; norm_num)⟩

/-- C3: in any state whose phase is not `STATE_IDLE`, `startUpload` and
`startDownload` answer `ERROR:TRANSFER_IN_PROGRESS` and return the state
completely unchanged (every session field, handle and storage included). -/
theorem C3_busy_rejects_new_transfer (st : Sys) (h : st.currentState ≠ STATE_IDLE) :
    (∀ name size openOk,
      startUpload st name size openOk = (st, [Msg.resp "ERROR:TRANSFER_IN_PROGRESS"])) ∧
    (∀ name openOk openOk2,
      startDownload st name openOk openOk2 = (st, [Msg.resp "ERROR:TRANSFER_IN_PROGRESS"])) := by
  constructor
  · intro name size openOk
    unfold startUpload
    rw [if_pos h]
  · intro name openOk openOk2
    unfold startDownload
    rw [if_pos h]

theorem C3_busy_rejects_new_transfer_witness :
    startUpload (startUpload (initSys 1000 []) "a" 3 true).1 "b" 5 true
        = ((startUpload (initSys 1000 []) "a" 3 true).1,
           [Msg.resp "ERROR:TRANSFER_IN_PROGRESS"]) ∧
      startDownload (startUpload (initSys 1000 []) "a" 3 true).1 "b" true true
        = ((startUpload (initSys 1000 []) "a" 3 true).1,
           [Msg.resp "ERROR:TRANSFER_IN_PROGRESS"]) :=
  ⟨(C3_busy_rejects_new_transfer _ (by decide)).1 "b" 5 true,
   (C3_busy_rejects_new_transfer _ (by decide)).2 "b" true true⟩

/-- C5: in every reachable non-idle state, `transferredBytes` is at most
`expectedFileSize`; and any accepted chunk that makes the stored
`transferredBytes` reach or exceed `expectedFileSize` sends the session back
to `STATE_IDLE` within the same `receiveChunk` call. -/
theorem C5_transferred_within_expected (st : Sys) (h : Reachable st) :
    (st.currentState ≠ STATE_IDLE → st.transferredBytes ≤ st.expectedFileSize) ∧
    (∀ d wc buf, st.currentState = STATE_UPLOADING →
      decodeBase64 d (CHUNK_SIZE + 10) = some buf → buf.length ≠ 0 →
      wc buf.length = buf.length →
      st.expectedFileSize ≤ (st.transferredBytes + buf.length) % 4294967296 →
      (receiveChunk st d wc).1.currentState = STATE_IDLE) := by
  constructor
  · intro hni
    have hinv := inv_reachable st h
    cases hsc : st.currentState with
    | STATE_IDLE => exact absurd hsc hni
    | STATE_UPLOADING => exact (hinv.2.2 hsc).1
    | STATE_DOWNLOADING => exact absurd hsc hinv.2.1
  · intro d wc buf hst hdec hne hwc hge
    rw [receiveChunk_accepted st d wc buf hst hdec hne hwc]
    dsimp only
    rw [if_pos (Or.inr hge)]
    simp [resetTransferState]

theorem C5_transferred_within_expected_witness :
    (receiveChunk (startUpload (initSys 1000 []) "a" 3 true).1 "AAAA"
      (fun n => n)).1.currentState = STATE_IDLE :=
  (C5_transferred_within_expected _ (reachable_demo_upload 3 (by norm_num))).2
    "AAAA" (fun n => n) [0, 0, 0] (by decide) (by decide) (by decide) rfl (by decide)

/-- C6: a chunk whose payload fails to decode is answered with
`ERROR:DECODE_FAILED` and the state — phase, handle, counters, storage — is
returned unchanged. -/
theorem C6_decode_failure_keeps_session (st : Sys) (d : String) (wc : Nat → Nat)
    (hst : st.currentState = STATE_UPLOADING)
    (hdec : decodeBase64 d (CHUNK_SIZE + 10) = none) :
    receiveChunk st d wc = (st, [Msg.resp "ERROR:DECODE_FAILED"]) :=
  receiveChunk_decode_none st d wc hst hdec

theorem C6_decode_failure_keeps_session_witness :
    receiveChunk (startUpload (initSys 1000 []) "a" 3 true).1 "!!" (fun n => n)
      = ((startUpload (initSys 1000 []) "a" 3 true).1, [Msg.resp "ERROR:DECODE_FAILED"]) :=
  C6_decode_failure_keeps_session _ "!!" (fun n => n) (by decide) (by decide)

/-- C7: a short write during an upload closes the handle, removes the partial
file from storage, resets the session to `STATE_IDLE` and reports
`ERROR:WRITE_FAILED`. -/
theorem C7_write_failure_aborts (st : Sys) (d : String) (wc : Nat → Nat) (buf : List Nat)
    (hst : st.currentState = STATE_UPLOADING)
    (hdec : decodeBase64 d (CHUNK_SIZE + 10) = some buf)
    (hne : buf.length ≠ 0)
    (hwc : wc buf.length ≠ buf.length) :
    (receiveChunk st d wc).1.currentState = STATE_IDLE ∧
    (receiveChunk st d wc).1.currentFileOpen = false ∧
    fsExists (receiveChunk st d wc).1.files st.currentFilename = false ∧
    (receiveChunk st d wc).2 = [Msg.resp "ERROR:WRITE_FAILED"] := by
  rw [receiveChunk_write_short st d wc buf hst hdec hne hwc]
  exact ⟨rfl, rfl, fsExists_fsRemove _ _, rfl⟩

theorem C7_write_failure_aborts_witness :
    (receiveChunk (startUpload (initSys 1000 []) "a" 3 true).1 "AAAA"
        (fun _ => 0)).1.currentState = STATE_IDLE ∧
    (receiveChunk (startUpload (initSys 1000 []) "a" 3 true).1 "AAAA"
        (fun _ => 0)).1.currentFileOpen = false ∧
    fsExists (receiveChunk (startUpload (initSys 1000 []) "a" 3 true).1 "AAAA"
        (fun _ => 0)).1.files
      (startUpload (initSys 1000 []) "a" 3 true).1.currentFilename = false ∧
    (receiveChunk (startUpload (initSys 1000 []) "a" 3 true).1 "AAAA"
        (fun _ => 0)).2 = [Msg.resp "ERROR:WRITE_FAILED"] :=
  C7_write_failure_aborts _ "AAAA" (fun _ => 0) [0, 0, 0]
    (by decide) (by decide) (by decide) (by decide)

/-- C8: a disconnect event always leaves the session `STATE_IDLE`; if the
phase was `STATE_UPLOADING` the partial file no longer exists afterwards, if
it was `STATE_DOWNLOADING` the storage is untouched, and no response or
progress message is emitted. -/
theorem C8_disconnect_cleanup (st : Sys) :
    (onDisconnect st).1.currentState = STATE_IDLE ∧
    (st.currentState = STATE_UPLOADING →
      fsExists (onDisconnect st).1.files st.currentFilename = false) ∧
    (st.currentState = STATE_DOWNLOADING → (onDisconnect st).1.files = st.files) ∧
    (onDisconnect st).2 = [] := by
  by_cases hidle : st.currentState = STATE_IDLE
  · unfold onDisconnect
    rw [if_neg (by simp [hidle])]
    refine ⟨hidle, fun hu => ?_, fun _ => rfl, rfl⟩
    rw [hidle] at hu
    cases hu
  · unfold onDisconnect
    rw [if_pos hidle]
    dsimp only
    refine ⟨rfl, fun hu => ?_, fun hd => ?_, rfl⟩
    · by_cases hex : fsExists st.files st.currentFilename = true
      · rw [if_pos ⟨hu, hex⟩]
        exact fsExists_fsRemove _ _
      · rw [if_neg (fun hc => hex hc.2)]
        simpa using hex
    · rw [if_neg (fun hc => by rw [hd] at hc; cases hc.1)]
      rfl

theorem C8_disconnect_cleanup_witness :
    (onDisconnect (startUpload (initSys 1000 []) "a" 3 true).1).1.currentState = STATE_IDLE ∧
    fsExists (onDisconnect (startUpload (initSys 1000 []) "a" 3 true).1).1.files
      (startUpload (initSys 1000 []) "a" 3 true).1.currentFilename = false ∧
    (onDisconnect (startUpload (initSys 1000 []) "a" 3 true).1).2 = [] := by
  obtain ⟨h1, h2, h3, h4⟩ := C8_disconnect_cleanup (startUpload (initSys 1000 []) "a" 3 true).1
  exact ⟨h1, h2 (by decide), h4⟩

/-- C4 (amended): for an upload declared with size `S > 0` whose chunk count
`ceil(S/200)` fits the 16-bit `expectedChunks` counter, if every chunk is
accepted (decodes within the buffer, nonempty, fully written) then the
session is finalized — back to `STATE_IDLE` — after exactly `ceil(S/200)`
accepted chunks, or after fewer chunks exactly when the accumulated bytes
have already reached `S`. -/
theorem C4_completion_bound (cap : Nat) (files0 : FSFiles) (name : String) (S : Nat)
    (hS : 0 < S)
    (hE : (S + CHUNK_SIZE - 1) / CHUNK_SIZE < 65536)
    (hfree : S ≤ cap - usedBytes files0)
    (payloads : List String) (sizes : List Nat) (hacc : AcceptedSizes payloads sizes)
    (k : Nat) (hk : k ≤ payloads.length) :
    ((runChunks (startUpload (initSys cap files0) name S true).1
        (payloads.take k)).currentState = STATE_IDLE ↔
      ((S + CHUNK_SIZE - 1) / CHUNK_SIZE ≤ k ∨ S ≤ (sizes.take k).sum)) := by
  have hsu := startUpload_success (initSys cap files0) name S rfl hfree
  have hwrap : (S + CHUNK_SIZE - 1) % 4294967296 = S + CHUNK_SIZE - 1 := by
    apply Nat.mod_eq_of_lt
    simp only [CHUNK_SIZE] at hE ⊢
    omega
  have hEeq : (S + CHUNK_SIZE - 1) % 4294967296 / CHUNK_SIZE % 65536
      = (S + CHUNK_SIZE - 1) / CHUNK_SIZE := by
    rw [hwrap, Nat.mod_eq_of_lt hE]
  have h1 : (startUpload (initSys cap files0) name S true).1.currentState
      = STATE_UPLOADING := by rw [hsu]
  have h2 : (startUpload (initSys cap files0) name S true).1.expectedChunks
      = (S + CHUNK_SIZE - 1) / CHUNK_SIZE := by
    rw [hsu]
    exact hEeq
  have h3 : (startUpload (initSys cap files0) name S true).1.receivedChunks = 0 := by rw [hsu]
  have h4 : (startUpload (initSys cap files0) name S true).1.transferredBytes = 0 := by
    rw [hsu]
  have h5 : (startUpload (initSys cap files0) name S true).1.expectedFileSize = S := by
    rw [hsu]
  have hmain := runChunks_completion payloads sizes hacc _ h1
    (by rw [h2]; exact hE)
    (by rw [h3, h2]; simp only [CHUNK_SIZE]; omega)
    (by rw [h4, h5]; exact hS)
    (by rw [h4]; exact Nat.zero_le _)
    k hk
  rw [hmain, h2, h3, h4, h5]
  simp

theorem C4_completion_bound_witness :
    ((runChunks (startUpload (initSys 1000 []) "a" 3 true).1
        (["AAAA"].take 1)).currentState = STATE_IDLE ↔
      ((3 + CHUNK_SIZE - 1) / CHUNK_SIZE ≤ 1 ∨ 3 ≤ (([3] : List Nat).take 1).sum)) :=
  C4_completion_bound 1000 [] "a" 3 (by norm_num) (by norm_num [CHUNK_SIZE])
    (by simp [usedBytes]) ["AAAA"] [3]
    (List.Forall₂.cons ⟨[0, 0, 0], by decide, by decide, by decide⟩ List.Forall₂.nil)
    1 (by norm_num)

/-- C4 (counterexample to the claim as stated): with declared size
`S = 13107200` we get `ceil(S/200) = 65536`, which the `uint16_t`
`expectedChunks` stores as `0`, so a single accepted 3-byte chunk finalizes
the upload even though `1 < ceil(S/200)` and the accumulated bytes `3 < S`. -/
theorem C4_counterexample :
    (runChunks (startUpload (initSys 13107200 []) "a" 13107200 true).1
        ["AAAA"]).currentState = STATE_IDLE ∧
      1 < (13107200 + CHUNK_SIZE - 1) / CHUNK_SIZE ∧ 3 < 13107200 :=
  ⟨by decide, by norm_num [CHUNK_SIZE], by norm_num⟩

/-- Every progress value `receiveChunk` emits for an accepted chunk is at
most 100 whenever the updated `transferredBytes` does not exceed the declared
`expectedFileSize` (and the size is nonzero). -/
theorem receiveChunk_progress_le (st : Sys) (d : String) (wc : Nat → Nat) (buf : List Nat)
    (hst : st.currentState = STATE_UPLOADING)
    (hdec : decodeBase64 d (CHUNK_SIZE + 10) = some buf)
    (hne : buf.length ≠ 0)
    (hwc : wc buf.length = buf.length)
    (hSpos : 0 < st.expectedFileSize)
    (hbound : (st.transferredBytes + buf.length) % 4294967296 ≤ st.expectedFileSize)
    (v : Nat) (hv : Msg.progress v ∈ (receiveChunk st d wc).2) :
    v ≤ 100 := by
  rw [receiveChunk_accepted st d wc buf hst hdec hne hwc] at hv
  dsimp only at hv
  have key : (st.transferredBytes + buf.length) * 100 % 4294967296
      ≤ st.expectedFileSize * 100 := by
    calc (st.transferredBytes + buf.length) * 100 % 4294967296
        = (st.transferredBytes + buf.length) % 4294967296 * 100 % 4294967296 := by
          rw [Nat.mod_mul_mod]
      _ ≤ (st.transferredBytes + buf.length) % 4294967296 * 100 := Nat.mod_le _ _
      _ ≤ st.expectedFileSize * 100 := Nat.mul_le_mul_right _ hbound
  have hple : (st.transferredBytes + buf.length) * 100 % 4294967296
      / st.expectedFileSize % 256 ≤ 100 := by
    have hd : (st.transferredBytes + buf.length) * 100 % 4294967296 / st.expectedFileSize
        ≤ st.expectedFileSize * 100 / st.expectedFileSize := Nat.div_le_div_right key
    rw [Nat.mul_div_cancel_left _ hSpos] at hd
    exact le_trans (Nat.mod_le _ _) hd
  split at hv
  · rw [List.mem_append] at hv
    rcases hv with hv | hv
    · rw [List.mem_append] at hv
      rcases hv with hv | hv
      · split at hv
        · simp at hv
          subst hv
          exact hple
        · simp at hv
      · simp at hv
    · split at hv
      · simp at hv
        omega
      · simp at hv
  · rw [List.mem_append] at hv
    rcases hv with hv | hv
    · split at hv
      · simp at hv
        subst hv
        exact hple
      · simp at hv
    · simp at hv

/-- The only progress notification `startUpload` ever emits is the initial
`sendProgress(0)` (line 492). -/
theorem startUpload_progress_le (st : Sys) (name : String) (size : Nat) (openOk : Bool)
    (v : Nat) (hv : Msg.progress v ∈ (startUpload st name size openOk).2) : v ≤ 100 := by
  simp only [startUpload] at hv
  split at hv
  · simp at hv
  · split at hv
    · simp at hv
    · split at hv
      · simp at hv
      · simp at hv
        omega

/-- The iteration budget of `sendChunksGo` does not matter once it is at
least the number of remaining bytes. -/
theorem sendChunksGo_fuel : ∀ fuel : Nat, ∀ content : List Nat, content.length ≤ fuel →
    ∀ transferred chunkNum totalSize totalChunks : Nat,
    sendChunksGo fuel content transferred chunkNum totalSize totalChunks
      = sendChunksGo content.length content transferred chunkNum totalSize totalChunks := by
  intro fuel
  induction fuel using Nat.strong_induction_on with
  | _ fuel ih =>
      intro content hlen transferred chunkNum totalSize totalChunks
      cases content with
      | nil => simp [sendChunksGo]
      | cons b bs =>
          cases fuel with
          | zero => simp at hlen
          | succ n =>
              simp only [List.length_cons] at hlen ⊢
              simp only [sendChunksGo]
              have hcs : 0 < CHUNK_SIZE := by norm_num [CHUNK_SIZE]
              have hdl : ((b :: bs).drop CHUNK_SIZE).length = bs.length + 1 - CHUNK_SIZE := by
                rw [List.length_drop, List.length_cons]
              rw [ih n (by omega) ((b :: bs).drop CHUNK_SIZE) (by omega),
                ih bs.length (by omega) ((b :: bs).drop CHUNK_SIZE) (by omega)]

/-- `sendChunksLoop` satisfies exactly the one-step recurrence of the source
`while` loop. -/
theorem sendChunksLoop_eq (content : List Nat)
    (transferred chunkNum totalSize totalChunks : Nat) :
    sendChunksLoop content transferred chunkNum totalSize totalChunks =
      if content.isEmpty then (transferred, [])
      else
        let buffer := content.take CHUNK_SIZE
        let encoded := encodeBase64 buffer
        let msg := Msg.resp ("CHUNK:" ++ toString chunkNum ++ ":" ++ encoded)
        let transferred1 := (transferred + buffer.length) % 4294967296
        let chunkNum1 := (chunkNum + 1) % 65536
        let progress := transferred1 * 100 % 4294967296 / totalSize % 256
        let progressMsgs :=
          if chunkNum1 % 5 = 0 ∨ chunkNum1 ≥ totalChunks then [Msg.progress progress] else []
        let rest := sendChunksLoop (content.drop CHUNK_SIZE) transferred1 chunkNum1
          totalSize totalChunks
        (rest.1, msg :: progressMsgs ++ rest.2) := by
  cases content with
  | nil => rfl
  | cons b bs =>
      simp only [sendChunksLoop, List.length_cons, sendChunksGo, List.isEmpty_cons,
        Bool.false_eq_true, if_false]
      rw [sendChunksGo_fuel bs.length ((b :: bs).drop CHUNK_SIZE)
        (by
          rw [List.length_drop, List.length_cons]
          have hcs : 0 < CHUNK_SIZE := by norm_num [CHUNK_SIZE]
          omega)]

/-- All progress values the send loop emits are at most 100, for any
iteration budget: the accumulated bytes plus the remaining bytes never
exceed the file size being divided by. -/
theorem sendChunksGo_progress_le : ∀ fuel : Nat, ∀ content : List Nat,
    ∀ transferred chunkNum totalSize totalChunks : Nat,
    transferred + content.length ≤ totalSize → totalSize < 4294967296 →
    ∀ v, Msg.progress v
      ∈ (sendChunksGo fuel content transferred chunkNum totalSize totalChunks).2 →
    v ≤ 100 := by
  intro fuel
  induction fuel with
  | zero =>
      intro content transferred chunkNum totalSize totalChunks hsz h32 v hv
      cases content <;> simp [sendChunksGo] at hv
  | succ n ih =>
      intro content transferred chunkNum totalSize totalChunks hsz h32 v hv
      cases content with
      | nil => simp [sendChunksGo] at hv
      | cons b bs =>
          simp only [sendChunksGo] at hv
          have hlen : (b :: bs).length = bs.length + 1 := List.length_cons _ _
          have htake : ((b :: bs).take CHUNK_SIZE).length ≤ (b :: bs).length :=
            le_of_eq_of_le (List.length_take _ _) (Nat.min_le_right _ _)
          have hwrap : (transferred + ((b :: bs).take CHUNK_SIZE).length) % 4294967296
              = transferred + ((b :: bs).take CHUNK_SIZE).length :=
            Nat.mod_eq_of_lt (by omega)
          rw [hwrap] at hv
          rw [List.cons_append, List.mem_cons] at hv
          rcases hv with hv | hv
          · simp at hv
          · rw [List.mem_append] at hv
            rcases hv with hv | hv
            · split at hv
              · simp at hv
                subst hv
                have hSpos : 0 < totalSize := by
                  rw [hlen] at hsz
                  omega
                have key : (transferred + ((b :: bs).take CHUNK_SIZE).length) * 100
                    % 4294967296 / totalSize ≤ totalSize * 100 / totalSize :=
                  Nat.div_le_div_right
                    (le_trans (Nat.mod_le _ _) (Nat.mul_le_mul_right _ (by omega)))
                rw [Nat.mul_div_cancel_left _ hSpos] at key
                simpa using le_trans (Nat.mod_le _ _) key
              · simp at hv
            · refine ih ((b :: bs).drop CHUNK_SIZE) _ _ _ _ ?_ h32 v hv
              have hsplit : ((b :: bs).take CHUNK_SIZE).length
                  + ((b :: bs).drop CHUNK_SIZE).length = (b :: bs).length := by
                rw [List.length_take, List.length_drop]
                omega
              omega

/-- All progress values emitted by the `while (file.available())` loop of
`sendFileInChunks` are at most 100. -/
theorem sendChunksLoop_progress_le (content : List Nat)
    (transferred chunkNum totalSize totalChunks : Nat)
    (hsz : transferred + content.length ≤ totalSize) (h32 : totalSize < 4294967296) :
    ∀ v, Msg.progress v
      ∈ (sendChunksLoop content transferred chunkNum totalSize totalChunks).2 →
    v ≤ 100 :=
  sendChunksGo_progress_le content.length content transferred chunkNum totalSize totalChunks
    hsz h32

/-- All progress notifications of the download path — `startDownload`
together with its synchronous `sendFileInChunks` — are at most 100, for any
file whose size fits `uint32_t`. -/
theorem startDownload_progress_le (st : Sys) (name : String) (openOk openOk2 : Bool)
    (h32 : (fsGet st.files (withSlash name)).length < 4294967296)
    (v : Nat) (hv : Msg.progress v ∈ (startDownload st name openOk openOk2).2) : v ≤ 100 := by
  simp only [startDownload] at hv
  split at hv
  · simp at hv
  · split at hv
    · simp at hv
    · split at hv
      · simp at hv
      · split at hv
        · simp at hv
        · rw [List.mem_append] at hv
          rcases hv with hv | hv
          · rw [List.mem_append] at hv
            rcases hv with hv | hv
            · simp at hv
              omega
            · exact sendChunksLoop_progress_le _ _ _ _ _ (by omega) h32 v hv
          · simp at hv
            omega

/-- C9 (amended): every progress notification emitted on the progress channel
during any upload or download carries a value between 0 and 100 — with no
side condition for `startUpload` and for the whole download path — and every
progress notification of `receiveChunk` likewise, provided any successfully
decoded and fully written payload keeps the updated `transferredBytes` within
the (nonzero) declared `expectedFileSize`; a chunk that overshoots the
declared size can emit a value above 100. -/
theorem C9_progress_bounded (st : Sys) :
    (∀ name size openOk v,
      Msg.progress v ∈ (startUpload st name size openOk).2 → v ≤ 100) ∧
    (∀ name openOk openOk2 v,
      (fsGet st.files (withSlash name)).length < 4294967296 →
      Msg.progress v ∈ (startDownload st name openOk openOk2).2 → v ≤ 100) ∧
    (∀ d wc v, 0 < st.expectedFileSize →
      (∀ buf, decodeBase64 d (CHUNK_SIZE + 10) = some buf →
        wc buf.length = buf.length →
        (st.transferredBytes + buf.length) % 4294967296 ≤ st.expectedFileSize) →
      Msg.progress v ∈ (receiveChunk st d wc).2 → v ≤ 100) := by
  refine ⟨fun name size openOk v hv => startUpload_progress_le st name size openOk v hv,
    fun name openOk openOk2 v h32 hv =>
      startDownload_progress_le st name openOk openOk2 h32 v hv,
    fun d wc v hSpos hball hv => ?_⟩
  by_cases hst : st.currentState = STATE_UPLOADING
  · cases hdec : decodeBase64 d (CHUNK_SIZE + 10) with
    | none =>
        rw [receiveChunk_decode_none st d wc hst hdec] at hv
        simp at hv
    | some buf =>
        by_cases hne0 : buf.length = 0
        · have hbuf : buf = [] := List.length_eq_zero.mp hne0
          subst hbuf
          rw [receiveChunk_decode_empty st d wc hst hdec] at hv
          simp at hv
        · by_cases hwc : wc buf.length = buf.length
          · exact receiveChunk_progress_le st d wc buf hst hdec hne0 hwc hSpos
              (hball buf hdec hwc) v hv
          · rw [receiveChunk_write_short st d wc buf hst hdec hne0 hwc] at hv
            simp at hv
  · rw [receiveChunk_not_uploading st d wc hst] at hv
    simp at hv

theorem C9_progress_bounded_witness :
    ((0 : Nat) ≤ 100 ∧ Msg.progress 0 ∈ (startUpload (initSys 1000 []) "a" 3 true).2) ∧
    ((100 : Nat) ≤ 100 ∧ Msg.progress 100
      ∈ (startDownload (initSys 1000 [("/a", [1, 2, 3])]) "a" true true).2) ∧
    ((66 : Nat) ≤ 100 ∧ Msg.progress 66
      ∈ (receiveChunk (startUpload (initSys 1000 []) "a" 3 true).1 "AAA=" (fun n => n)).2) := by
  refine ⟨⟨?_, by decide⟩, ⟨?_, by decide⟩, ⟨?_, by decide⟩⟩
  · exact (C9_progress_bounded (initSys 1000 [])).1 "a" 3 true 0 (by decide)
  · exact (C9_progress_bounded (initSys 1000 [("/a", [1, 2, 3])])).2.1 "a" true true 100
      (by decide) (by decide)
  · refine (C9_progress_bounded (startUpload (initSys 1000 []) "a" 3 true).1).2.2 "AAA="
      (fun n => n) 66 (by decide) ?_ (by decide)
    intro buf hb _
    have h0 : decodeBase64 "AAA=" (CHUNK_SIZE + 10) = some [0, 0] := by decide
    rw [h0] at hb
    have hbuf : buf = [0, 0] := (Option.some.inj hb).symm
    subst hbuf
    decide

/-- C9 (counterexample to the claim as stated): declaring size 1 and sending
one accepted 2-byte chunk makes `receiveChunk` emit the progress byte
`(2 * 100) / 1 = 200` on the progress channel — greater than 100. -/
theorem C9_counterexample :
    Msg.progress 200 ∈ (receiveChunk (startUpload (initSys 1000 []) "a" 1 true).1 "AAA="
        (fun n => n)).2 ∧ ¬(200 : Nat) ≤ 100 :=
  ⟨by decide, by norm_num⟩

/-- C10: the division at line 531 is reachable with divisor
`expectedFileSize = 0`: `CMD:UPLOAD_START:a:0` succeeds (no guard rejects a
zero declared size), and a following valid chunk passes every guard before
the division — on the device this divides by zero.  This refutes the claim
that the divisor is always nonzero there. -/
theorem C10_division_by_zero_reachable :
    Reachable (startUpload (initSys 1000 []) "a" 0 true).1 ∧
    (startUpload (initSys 1000 []) "a" 0 true).1.currentState = STATE_UPLOADING ∧
    (startUpload (initSys 1000 []) "a" 0 true).1.expectedFileSize = 0 ∧
    reachesProgressDivision (startUpload (initSys 1000 []) "a" 0 true).1 "AAAA"
      (fun n => n) = true :=
  ⟨reachable_demo_upload 0 (by norm_num), by decide, by decide, by decide⟩

end FileTransferBLE
